import Mathlib

/-
Verification of `src/lib/image/icc_profile.js`: the JPEG APP2 and PNG iCCP
ICC-profile extractors and the ICC binary-layout decoder.

Modelling conventions (a shallow embedding of the JavaScript source):
  * a Node `Buffer` is a `List Nat`, one entry per byte;
  * a JavaScript string is its sequence of UTF-16 code units, a `List Nat`;
  * a thrown exception is the `.error` side of `Except JSErr`; the
    `ERR_OUT_OF_RANGE` raised by `Buffer.readUInt16BE` / `readUInt32BE` on an
    out-of-range offset is `JSErr.rangeError`, and `new Error(msg)` is
    `JSErr.error msg`;
  * the two container-scanning `while` loops are modelled with an explicit
    iteration budget (first argument of `jpegCollect` / `pngScan`); the budget
    `buffer.length` is saturated, because every JPEG iteration advances the
    cursor by at least 2 bytes and every PNG iteration by at least 12 bytes
    (proved below), so the budgeted model agrees with the unbounded loop;
  * `zlib.inflateSync` is external to the repository and is modelled as an
    oracle parameter `inflate`, returning either the inflated bytes or the
    message of the exception it throws.
-/

namespace ICC

/-- Bytes of a Node `Buffer`, one natural number (0 to 255) per byte. -/
abbrev Buf := List Nat

/-- A JavaScript string, as its sequence of UTF-16 code units. -/
abbrev JStr := List Nat

/-- The code units of an ASCII string literal. -/
def ascii (s : String) : JStr := s.data.map Char.toNat

/-- Read one byte of a buffer (callers only use in-bounds indices; the
JavaScript out-of-bounds `undefined` cases are modelled at each use site). -/
def byteAt (b : Buf) (i : Nat) : Nat := b.getD i 0

/-- `Buffer.prototype.slice(start, end)`: both ends are clamped to the buffer,
and a negative `end` counts back from the buffer end.  All call sites in the
source pass a non-negative `start`. -/
def jsSlice (b : Buf) (start : Nat) (stop : Int) : Buf :=
  let e : Nat := if stop < 0 then ((b.length : Int) + stop).toNat else min stop.toNat b.length
  (b.take e).drop start

/-- A JavaScript exception: either Node's `ERR_OUT_OF_RANGE` from a
`readUIntBE`-family call, or `new Error(msg)`. -/
inductive JSErr
  | rangeError
  | error (msg : JStr)
deriving DecidableEq

/-- `Buffer.prototype.readUInt16BE`: big-endian 16-bit read, throwing
`ERR_OUT_OF_RANGE` when fewer than 2 bytes remain at `off`. -/
def readU16 (b : Buf) (off : Nat) : Except JSErr Nat :=
  if off + 2 ≤ b.length then .ok (byteAt b off * 256 + byteAt b (off + 1))
  else .error .rangeError

/-- The value of an in-bounds big-endian 32-bit read at `off`. -/
def readU32val (b : Buf) (off : Nat) : Nat :=
  byteAt b off * 16777216 + byteAt b (off + 1) * 65536 +
    byteAt b (off + 2) * 256 + byteAt b (off + 3)

/-- `Buffer.prototype.readUInt32BE`: big-endian 32-bit read, throwing
`ERR_OUT_OF_RANGE` when fewer than 4 bytes remain at `off`. -/
def readU32 (b : Buf) (off : Nat) : Except JSErr Nat :=
  if off + 4 ≤ b.length then .ok (readU32val b off) else .error .rangeError

/-- `Buffer.prototype.toString` with encoding `ascii`: Node clears the high
bit of every byte and takes the result as one code unit per byte. -/
def asciiDecode (b : Buf) : JStr := b.map (· % 128)

/-- UTF-16 code units of one Unicode code point (a surrogate pair above
U+FFFF). -/
def utf16ofCp (cp : Nat) : List Nat :=
  if cp < 65536 then [cp]
  else [55296 + (cp - 65536) / 1024, 56320 + (cp - 65536) % 1024]

/-- `Buffer.prototype.toString` with the default `utf8` encoding: the WHATWG
UTF-8 decoder, emitting U+FFFD for each maximal invalid subsequence, then
UTF-16 code units. -/
def utf8Decode : Buf → JStr
  | [] => []
  | b :: rest =>
    if b < 128 then b :: utf8Decode rest
    else if b < 194 then 65533 :: utf8Decode rest
    else if b < 224 then
      match rest with
      | [] => [65533]
      | c :: r2 =>
        if 128 ≤ c ∧ c ≤ 191 then ((b - 192) * 64 + (c - 128)) :: utf8Decode r2
        else 65533 :: utf8Decode (c :: r2)
    else if b < 240 then
      let lo := if b = 224 then 160 else 128
      let hi := if b = 237 then 159 else 191
      match rest with
      | [] => [65533]
      | c :: r2 =>
        if lo ≤ c ∧ c ≤ hi then
          match r2 with
          | [] => [65533]
          | d :: r3 =>
            if 128 ≤ d ∧ d ≤ 191 then
              ((b - 224) * 4096 + (c - 128) * 64 + (d - 128)) :: utf8Decode r3
            else 65533 :: utf8Decode (d :: r3)
        else 65533 :: utf8Decode (c :: r2)
    else if b < 245 then
      let lo := if b = 240 then 144 else 128
      let hi := if b = 244 then 143 else 191
      match rest with
      | [] => [65533]
      | c :: r2 =>
        if lo ≤ c ∧ c ≤ hi then
          match r2 with
          | [] => [65533]
          | d :: r3 =>
            if 128 ≤ d ∧ d ≤ 191 then
              match r3 with
              | [] => [65533]
              | e :: r4 =>
                if 128 ≤ e ∧ e ≤ 191 then
                  utf16ofCp ((b - 240) * 262144 + (c - 128) * 4096 +
                    (d - 128) * 64 + (e - 128)) ++ utf8Decode r4
                else 65533 :: utf8Decode (e :: r4)
            else 65533 :: utf8Decode (d :: r3)
        else 65533 :: utf8Decode (c :: r2)
    else 65533 :: utf8Decode rest

/-- The code units removed by `String.prototype.trim`: the ECMAScript
WhiteSpace and LineTerminator sets. -/
def jsWhitespace (c : Nat) : Bool :=
  [9, 10, 11, 12, 13, 32, 160, 5760, 8232, 8233, 8239, 8287, 12288, 65279].contains c
    || (decide (8192 ≤ c) && decide (c ≤ 8202))

/-- `String.prototype.trim`: strip leading and trailing JavaScript
whitespace.  NUL is not whitespace and is not stripped. -/
def jsTrim (s : JStr) : JStr :=
  ((s.dropWhile jsWhitespace).reverse.dropWhile jsWhitespace).reverse

/-- `String.prototype.toLowerCase`, on the ASCII range.  Every use in the
source compares the result against 4-letter ASCII vocabulary keys, and no
non-ASCII code unit reachable from a 4-byte field lower-cases onto an ASCII
key, so folding only A–Z is faithful at every call site. -/
def jsToLowerCase (s : JStr) : JStr :=
  s.map fun c => if 65 ≤ c ∧ c ≤ 90 then c + 32 else c

/-- `Array.prototype.indexOf(0)` on a byte array, as an `Option` (JavaScript
returns -1 when absent). -/
def jsIndexOfZero : Buf → Option Nat
  | [] => none
  | b :: rest => if b = 0 then some 0 else (jsIndexOfZero rest).map (· + 1)

/-! ### `ICCProfile.extractFromJPEG` (lines 3 to 20 of the source)

The loop `while (pos < jpeg.length - 4)` reads a 2-byte marker at `pos` and a
2-byte length at `pos + 2`, collects the segment tail when the marker is APP2
with an `ICC_PROFILE` signature, and advances `pos` by `length + 2`.  The
iteration budget (first explicit argument) is saturated at `jpeg.length`,
since every iteration advances `pos` by at least 2. -/

/-- One loop iteration's cursor advance: `pos += length + 2` with `length`
the big-endian 16-bit field at `pos + 2`. -/
def jpegStep (jpeg : Buf) (pos : Nat) : Nat :=
  pos + (byteAt jpeg (pos + 2) * 256 + byteAt jpeg (pos + 3)) + 2

/-- The segment-collecting loop of `extractFromJPEG`: the list of collected
`ICC_PROFILE` fragments, or the exception escaping the loop. -/
def jpegCollect (jpeg : Buf) : Nat → Nat → Except JSErr (List Buf)
  | 0, _ => .ok []
  | fuel + 1, pos =>
    if pos + 4 < jpeg.length then
      match readU16 jpeg pos, readU16 jpeg (pos + 2) with
      | .error e, _ => .error e
      | .ok _, .error e => .error e
      | .ok marker, .ok length =>
        match jpegCollect jpeg fuel (pos + length + 2) with
        | .error e => .error e
        | .ok rest =>
          if marker = 65506 then
            if (ascii "ICC_PROFILE").isPrefixOf
                (asciiDecode (jsSlice jpeg (pos + 4) (pos + 18))) then
              .ok (jsSlice jpeg (pos + 18) (pos + length + 2) :: rest)
            else .ok rest
          else .ok rest
    else .ok []

/-- `ICCProfile.extractFromJPEG`: `.ok none` models the `return undefined`
taken when no fragment was collected, `.ok (some _)` the `Buffer.concat`. -/
def extractFromJPEG (jpeg : Buf) : Except JSErr (Option Buf) :=
  match jpegCollect jpeg jpeg.length 2 with
  | .error e => .error e
  | .ok buffers => .ok (if buffers = [] then none else some buffers.flatten)

/-- The cursor positions at which the `extractFromJPEG` loop body runs: start
at `pos`, continue while more than 4 bytes precede the buffer end, advance by
`jpegStep`. -/
def jpegPositions (jpeg : Buf) : Nat → Nat → List Nat
  | 0, _ => []
  | fuel + 1, pos =>
    if pos + 4 < jpeg.length then pos :: jpegPositions jpeg fuel (jpegStep jpeg pos)
    else []

/-- The fragment the loop body collects at cursor position `pos`: when the
16-bit marker at `pos` is APP2 (`0xffe2`) and the 14 `ascii`-decoded bytes at
`pos + 4` start with `ICC_PROFILE`, the slice from `pos + 18` (byte 14 of the
segment payload) to `pos + length + 2` (the segment end). -/
def fragAt (jpeg : Buf) (pos : Nat) : Option Buf :=
  if byteAt jpeg pos * 256 + byteAt jpeg (pos + 1) = 65506 then
    if (ascii "ICC_PROFILE").isPrefixOf
        (asciiDecode (jsSlice jpeg (pos + 4) (pos + 18))) then
      some (jsSlice jpeg (pos + 18)
        (pos + (byteAt jpeg (pos + 2) * 256 + byteAt jpeg (pos + 3)) + 2))
    else none
  else none

/-! ### `ICCProfile.extractFromPNG` (lines 30 to 75 of the source)

The loop `while (offset < pngBuffer.length)` reads a 4-byte chunk length at
`offset`, the 4-byte chunk type at `offset + 4`, stops at `IEND`, decodes the
first `iCCP` chunk, and otherwise advances by `chunkLength + 12`.  The
iteration budget is saturated at `pngBuffer.length`, since every iteration
advances `offset` by at least 12. -/

/-- One loop iteration's cursor advance: `offset += chunkLength + 12` with
`chunkLength` the big-endian 32-bit field at `offset`. -/
def pngStep (png : Buf) (off : Nat) : Nat := off + readU32val png off + 12

/-- The chunk-scanning loop of `extractFromPNG`.  `inflate` is the
`zlib.inflateSync` oracle: `.ok` its return value, `.error` the message of
the exception it throws. -/
def pngScan (png : Buf) (inflate : Buf → Except JStr Buf) :
    Nat → Nat → Except JSErr (Option Buf)
  | 0, _ => .ok none
  | fuel + 1, offset =>
    if offset < png.length then
      match readU32 png offset with
      | .error e => .error e
      | .ok chunkLength =>
        let chunkType := asciiDecode (jsSlice png (offset + 4) (offset + 8))
        if chunkType = ascii "IEND" then .ok none
        else if chunkType = ascii "iCCP" then
          let data := jsSlice png (offset + 8) (offset + 8 + chunkLength)
          match jsIndexOfZero data with
          | none => .error (.error (ascii "Invalid iCCP chunk format"))
          | some nullPos =>
            if nullPos = data.length - 1 then
              .error (.error (ascii "Invalid iCCP chunk format"))
            else if byteAt data (nullPos + 1) ≠ 0 then
              .error (.error (ascii "Unsupported compression method"))
            else
              match inflate (data.drop (nullPos + 2)) with
              | .ok iccProfile => .ok (some iccProfile)
              | .error msg =>
                .error (.error (ascii "Failed to decompress ICC profile: " ++ msg))
        else pngScan png inflate fuel (offset + chunkLength + 12)
    else .ok none

/-- `ICCProfile.extractFromPNG`: starts at offset 8 (after the PNG
signature); falling off the buffer or reaching `IEND` returns `undefined`
(`.ok none`). -/
def extractFromPNG (png : Buf) (inflate : Buf → Except JStr Buf) :
    Except JSErr (Option Buf) :=
  pngScan png inflate png.length 8

/-- Decides that the `extractFromPNG` scan starting at `off` runs to a clean
absence result: every visited chunk boundary leaves at least 4 bytes for the
length read, and `IEND` or the buffer end arrives before any `iCCP` chunk. -/
def pngNoICC (png : Buf) : Nat → Nat → Bool
  | 0, _ => true
  | fuel + 1, off =>
    if off < png.length then
      if off + 4 ≤ png.length then
        let t := asciiDecode (jsSlice png (off + 4) (off + 8))
        if t = ascii "IEND" then true
        else if t = ascii "iCCP" then false
        else pngNoICC png fuel (pngStep png off)
      else false
    else true

/-- Decides that the `extractFromPNG` scan starting at `start` reaches the
chunk boundary `target` without first raising, returning, or stopping. -/
def pngReaches (png : Buf) : Nat → Nat → Nat → Bool
  | 0, start, target => start = target
  | fuel + 1, start, target =>
    if start = target then true
    else if start < png.length then
      if start + 4 ≤ png.length then
        let t := asciiDecode (jsSlice png (start + 4) (start + 8))
        if t = ascii "IEND" then false
        else if t = ascii "iCCP" then false
        else pngReaches png fuel (pngStep png start) target
      else false
    else false

/-- The chunk boundaries the `extractFromPNG` loop visits (stopping early at
`IEND`, at an `iCCP` chunk, or at an out-of-range length read, exactly as the
scan does). -/
def pngPositions (png : Buf) : Nat → Nat → List Nat
  | 0, _ => []
  | fuel + 1, off =>
    if off < png.length then
      off ::
        (if off + 4 ≤ png.length then
          let t := asciiDecode (jsSlice png (off + 4) (off + 8))
          if t = ascii "IEND" then []
          else if t = ascii "iCCP" then []
          else pngPositions png fuel (pngStep png off)
        else [])
    else []

/-! ### `ICCProfile.prototype._parse` (lines 82 to 234 of the source)

`new ICCProfile(buffer)` runs `_parse`, whose inner `parse` closure performs
the structural checks, the scalar attribute extraction, and the tag-table
walk.  The JavaScript object literals `versionMap`, `intentMap`, `valueMap`
and `tagMap` are finite lookups (none of their reachable keys collides with
an inherited `Object.prototype` property, since every probed key has at most
4 code units). -/

/-- The attribute record `_parse` accumulates; a JavaScript object field that
was never assigned (or assigned `undefined`) is `none`. -/
structure Profile where
  version : Option JStr := none
  intent : Option JStr := none
  cmm : Option JStr := none
  deviceClass : Option JStr := none
  colorSpace : Option JStr := none
  connectionSpace : Option JStr := none
  platform : Option JStr := none
  manufacturer : Option JStr := none
  model : Option JStr := none
  creator : Option JStr := none
  description : Option JStr := none
  copyright : Option JStr := none
  deviceModelDescription : Option JStr := none
  viewingConditionsDescription : Option JStr := none
deriving DecidableEq

/-- The `versionMap` object literal. -/
def versionMap (v : Nat) : Option JStr :=
  if v = 33554432 then some (ascii "2.0")
  else if v = 34603008 then some (ascii "2.1")
  else if v = 37748736 then some (ascii "2.4")
  else if v = 67108864 then some (ascii "4.0")
  else if v = 69206016 then some (ascii "4.2")
  else if v = 70254592 then some (ascii "4.3")
  else none

/-- The `intentMap` object literal. -/
def intentMap (v : Nat) : Option JStr :=
  if v = 0 then some (ascii "Perceptual")
  else if v = 1 then some (ascii "Relative")
  else if v = 2 then some (ascii "Saturation")
  else if v = 3 then some (ascii "Absolute")
  else none

/-- The `valueMap` object literal (device-class and platform vocabulary). -/
def valueMapLookup (k : JStr) : Option JStr :=
  if k = ascii "scnr" then some (ascii "Scanner")
  else if k = ascii "mntr" then some (ascii "Monitor")
  else if k = ascii "prtr" then some (ascii "Printer")
  else if k = ascii "link" then some (ascii "Link")
  else if k = ascii "abst" then some (ascii "Abstract")
  else if k = ascii "spac" then some (ascii "Space")
  else if k = ascii "nmcl" then some (ascii "Named color")
  else if k = ascii "appl" then some (ascii "Apple")
  else if k = ascii "adbe" then some (ascii "Adobe")
  else if k = ascii "msft" then some (ascii "Microsoft")
  else if k = ascii "sunw" then some (ascii "Sun Microsystems")
  else if k = ascii "sgi" then some (ascii "Silicon Graphics")
  else if k = ascii "tgnt" then some (ascii "Taligent")
  else none

/-- `getContentAtOffsetAsString`: the 4 bytes at `offset` UTF-8 decoded and
trimmed, passed through `valueMap` by the lower-cased key when present and
kept verbatim otherwise. -/
def getContentAtOffsetAsString (buffer : Buf) (offset : Nat) : JStr :=
  let value := jsTrim (utf8Decode (jsSlice buffer offset (offset + 4)))
  match valueMapLookup (jsToLowerCase value) with
  | some mapped => mapped
  | none => value

/-- `hasContentAtOffset`: `buffer.readUInt32BE(offset) !== 0` (it can throw
out of range, like the read it wraps). -/
def hasContentAtOffset (buffer : Buf) (offset : Nat) : Except JSErr Bool :=
  match readU32 buffer offset with
  | .error e => .error e
  | .ok v => .ok (v ≠ 0)

/-- The code-unit loop of `readStringUTF16BE`: big-endian pairs via
`String.fromCharCode(data[i] * 256 + data[i + 1])`; on an odd tail,
`data[i + 1]` is `undefined`, the sum is `NaN`, and `fromCharCode` coerces it
to code unit 0 (`ToUint16`, hence the modulus). -/
def utf16Units : Buf → JStr
  | [] => []
  | [_] => [0]
  | a :: b :: rest => (a * 256 + b) % 65536 :: utf16Units rest

/-- `readStringUTF16BE(buffer, start, end)`. -/
def readStringUTF16BE (buffer : Buf) (start stop : Nat) : JStr :=
  utf16Units (jsSlice buffer start stop)

/-- ``invalid(reason)``: ``new Error(`Invalid ICC profile: ${reason}`)``. -/
def invalid (reason : JStr) : JSErr := .error (ascii "Invalid ICC profile: " ++ reason)

/-- `tagMap` membership plus field assignment: for a recognized processed tag
signature, the record update `profile[tagMap[tagSignature]] = value`. -/
def tagAssign (sig : JStr) : Option (Profile → JStr → Profile) :=
  if sig = ascii "desc" then some fun p v => { p with description := some v }
  else if sig = ascii "cprt" then some fun p v => { p with copyright := some v }
  else if sig = ascii "dmdd" then some fun p v => { p with deviceModelDescription := some v }
  else if sig = ascii "vued" then some fun p v => { p with viewingConditionsDescription := some v }
  else none

/-- One iteration of the tag-table loop (lines 174 to 230 of the source),
acting on the 12-byte entry at `tagHeaderOffset`.  The source tests
`tagType` against `desc`, `text` and `mluc` in three consecutive `if`
statements; the constants are distinct, so the chain below is the same. -/
def processTag (buffer : Buf) (tagHeaderOffset : Nat) (p : Profile) :
    Except JSErr Profile :=
  let tagSignature := getContentAtOffsetAsString buffer tagHeaderOffset
  match tagAssign tagSignature with
  | none => .ok p
  | some assign =>
    match readU32 buffer (tagHeaderOffset + 4) with
    | .error e => .error e
    | .ok tagOffset =>
      match readU32 buffer (tagHeaderOffset + 8) with
      | .error e => .error e
      | .ok tagSize =>
        if tagOffset > buffer.length then
          .error (invalid (ascii "tag offset out of bounds"))
        else
          let tagType := getContentAtOffsetAsString buffer tagOffset
          if tagType = ascii "desc" then
            match readU32 buffer (tagOffset + 8) with
            | .error e => .error e
            | .ok tagValueSize =>
              if tagValueSize > tagSize then
                .error (invalid
                  (ascii "description tag value size out of bounds for " ++ tagSignature))
              else
                .ok (assign p (utf8Decode
                  (jsSlice buffer (tagOffset + 12) (tagOffset + tagValueSize + 11))))
          else if tagType = ascii "text" then
            .ok (assign p (utf8Decode
              (jsSlice buffer (tagOffset + 8) ((tagOffset : Int) + tagSize - 7))))
          else if tagType = ascii "mluc" then
            match readU32 buffer (tagOffset + 8) with
            | .error e => .error e
            | .ok numberOfNames =>
              match readU32 buffer (tagOffset + 12) with
              | .error e => .error e
              | .ok nameRecordSize =>
                if nameRecordSize ≠ 12 then
                  .error (invalid
                    (ascii "mluc name record size must be 12 for tag " ++ tagSignature))
                else if numberOfNames > 0 then
                  match readU32 buffer (tagOffset + 20) with
                  | .error e => .error e
                  | .ok nameLength =>
                    match readU32 buffer (tagOffset + 24) with
                    | .error e => .error e
                    | .ok nameOffset =>
                      .ok (assign p (readStringUTF16BE buffer
                        (tagOffset + nameOffset) (tagOffset + nameOffset + nameLength)))
                else .ok p
          else .ok p

/-- The tag-table loop: `tagCount` iterations of `processTag`, the entry
offset advancing by 12. -/
def tagLoop (buffer : Buf) : Nat → Nat → Profile → Except JSErr Profile
  | 0, _, p => .ok p
  | count + 1, tagHeaderOffset, p =>
    match processTag buffer tagHeaderOffset p with
    | .error e => .error e
    | .ok p2 => tagLoop buffer count (tagHeaderOffset + 12) p2

/-- The `forEach` over the eight four-byte-code attribute descriptors
(lines 156 to 170 of the source), unrolled in array order.  Each iteration
reads `hasContentAtOffset` (whose exception aborts the whole decode, in array
order, as here) and assigns at most its own distinct field; the eight
assignments are gathered into one record update, which is observably the same
since an aborted decode discards the partially assigned object. -/
def applyHeaderAttrs (buffer : Buf) (p : Profile) : Except JSErr Profile :=
  match hasContentAtOffset buffer 4 with
  | .error e => .error e
  | .ok b4 =>
    match hasContentAtOffset buffer 12 with
    | .error e => .error e
    | .ok b12 =>
      match hasContentAtOffset buffer 16 with
      | .error e => .error e
      | .ok b16 =>
        match hasContentAtOffset buffer 20 with
        | .error e => .error e
        | .ok b20 =>
          match hasContentAtOffset buffer 40 with
          | .error e => .error e
          | .ok b40 =>
            match hasContentAtOffset buffer 48 with
            | .error e => .error e
            | .ok b48 =>
              match hasContentAtOffset buffer 52 with
              | .error e => .error e
              | .ok b52 =>
                match hasContentAtOffset buffer 80 with
                | .error e => .error e
                | .ok b80 =>
                  .ok { p with
                    cmm := if b4 then some (getContentAtOffsetAsString buffer 4) else p.cmm
                    deviceClass := if b12 then some (getContentAtOffsetAsString buffer 12) else p.deviceClass
                    colorSpace := if b16 then some (getContentAtOffsetAsString buffer 16) else p.colorSpace
                    connectionSpace := if b20 then some (getContentAtOffsetAsString buffer 20) else p.connectionSpace
                    platform := if b40 then some (getContentAtOffsetAsString buffer 40) else p.platform
                    manufacturer := if b48 then some (getContentAtOffsetAsString buffer 48) else p.manufacturer
                    model := if b52 then some (getContentAtOffsetAsString buffer 52) else p.model
                    creator := if b80 then some (getContentAtOffsetAsString buffer 80) else p.creator }

/-- The inner `parse` closure of `_parse`, run by the `ICCProfile`
constructor: structural checks, scalar attributes, header attributes, then
the tag-table walk. -/
def parse (buffer : Buf) : Except JSErr Profile :=
  match readU32 buffer 0 with
  | .error e => .error e
  | .ok size =>
    if size ≠ buffer.length then .error (invalid (ascii "length mismatch"))
    else if utf8Decode (jsSlice buffer 36 40) ≠ ascii "acsp" then
      .error (invalid (ascii "missing signature"))
    else
      match readU32 buffer 8 with
      | .error e => .error e
      | .ok v8 =>
        match readU32 buffer 64 with
        | .error e => .error e
        | .ok v64 =>
          match applyHeaderAttrs buffer { version := versionMap v8, intent := intentMap v64 } with
          | .error e => .error e
          | .ok p1 =>
            match readU32 buffer 128 with
            | .error e => .error e
            | .ok tagCount => tagLoop buffer tagCount 132 p1

/-! ### Statement-side vocabulary for the claims -/

/-- The header attribute the decoder records for a four-byte-code field at
`off`: present exactly when the 32-bit word there is non-zero (the 4 bytes
are not all zero), with the processed string value. -/
def hdrAttr (buffer : Buf) (off : Nat) : Option JStr :=
  if readU32val buffer off ≠ 0 then some (getContentAtOffsetAsString buffer off) else none

/-- The exact `Invalid ICC profile` reason strings `parse` can produce: one
fixed string per structural check, the two tag-table reasons carrying the
processed tag signature. -/
def validReason (m : JStr) : Prop :=
  m = ascii "Invalid ICC profile: length mismatch"
    ∨ m = ascii "Invalid ICC profile: missing signature"
    ∨ m = ascii "Invalid ICC profile: tag offset out of bounds"
    ∨ (∃ sig, m = ascii "Invalid ICC profile: description tag value size out of bounds for " ++ sig)
    ∨ (∃ sig, m = ascii "Invalid ICC profile: mluc name record size must be 12 for tag " ++ sig)

/-- The decode contract of the amended claim C1: a profile record, an
out-of-range read, or an `Invalid ICC profile` error with one of the
specific reasons. -/
def decodeOutcome (r : Except JSErr Profile) : Prop :=
  match r with
  | .ok _ => True
  | .error .rangeError => True
  | .error (.error m) => validReason m

/-- What the `extractFromPNG` loop body produces on an `iCCP` chunk at
`off` (the branch at lines 43 to 69 of the source): this is where the scan
returns without looking at any later chunk. -/
def iccpResult (png : Buf) (inflate : Buf → Except JStr Buf) (off : Nat) :
    Except JSErr (Option Buf) :=
  let data := jsSlice png (off + 8) (off + 8 + readU32val png off)
  match jsIndexOfZero data with
  | none => .error (.error (ascii "Invalid iCCP chunk format"))
  | some nullPos =>
    if nullPos = data.length - 1 then
      .error (.error (ascii "Invalid iCCP chunk format"))
    else if byteAt data (nullPos + 1) ≠ 0 then
      .error (.error (ascii "Unsupported compression method"))
    else
      match inflate (data.drop (nullPos + 2)) with
      | .ok iccProfile => .ok (some iccProfile)
      | .error msg =>
        .error (.error (ascii "Failed to decompress ICC profile: " ++ msg))

/-! ### Concrete buffers used by the counterexamples and witnesses -/

/-- 40 self-consistent bytes: declared length 40 matches, `acsp` present at
36, but the rendering-intent read at offset 64 is out of range. -/
def c1buf : Buf := [0, 0, 0, 40] ++ List.replicate 32 0 ++ [97, 99, 115, 112]

/-- A JPEG whose single APP2 `ICC_PROFILE` segment declares length 256
(0x0100) although only 4 payload bytes exist before the buffer end. -/
def c2buf : Buf :=
  [255, 216, 255, 226, 1, 0] ++ ascii "ICC_PROFILE" ++ [0, 1, 1] ++ [170, 187, 204, 221]

/-- 9 bytes: the PNG signature and a single stray byte, so the first length
read at offset 8 has only 1 byte available. -/
def c3png : Buf := [137, 80, 78, 71, 13, 10, 26, 10, 0]

/-- A well-formed PNG with only an `IEND` chunk. -/
def c3pngIend : Buf :=
  [137, 80, 78, 71, 13, 10, 26, 10] ++ [0, 0, 0, 0, 73, 69, 78, 68, 174, 66, 96, 130]

/-- A 12-byte JPEG whose first segment's length field is 4: the scan next
visits position 8 = 2 + 4 + 2, and stops there with exactly 4 bytes left. -/
def c4buf : Buf := [255, 216, 255, 226, 0, 4, 0, 0, 0, 0, 0, 0]

/-- A JPEG with one APP2 `ICC_PROFILE` segment of declared length 20,
carrying the 4 profile bytes `[222, 173, 190, 239]` after the 14-byte
segment header. -/
def c5buf : Buf :=
  [255, 216, 255, 226, 0, 20] ++ ascii "ICC_PROFILE" ++ [0, 1, 1] ++ [222, 173, 190, 239]

/-- A PNG whose first chunk is an `iCCP` chunk with profile name `n`, null
separator, compression method 0 and compressed payload `[9, 9]`. -/
def c6png : Buf :=
  [137, 80, 78, 71, 13, 10, 26, 10] ++ [0, 0, 0, 5, 105, 67, 67, 80, 110, 0, 0, 9, 9, 0, 0, 0, 0]

/-- A 132-byte profile passing both structural checks, with `cmm` bytes
`"ABC\x00"` (trailing NUL), every other header field zero, and an empty tag
table. -/
def c7buf : Buf :=
  [0, 0, 0, 132] ++ [65, 66, 67, 0] ++ List.replicate 28 0 ++
    [97, 99, 115, 112] ++ List.replicate 92 0

/-- The record `parse` produces for `c7buf`. -/
def c7profile : Profile :=
  { intent := some (ascii "Perceptual"), cmm := some [65, 66, 67, 0] }

/-- A 44-byte fragment holding one tag-table entry at offset 0 (signature
`cprt`, data offset 12, size 30) whose `mluc` data has one name record of
size 12, name length 4 and name offset 28, the UTF-16BE bytes of `Hi` at
offset 40. -/
def c8buf : Buf :=
  (ascii "cprt" ++ [0, 0, 0, 12] ++ [0, 0, 0, 30]) ++
    (ascii "mluc" ++ [0, 0, 0, 0] ++ [0, 0, 0, 1] ++ [0, 0, 0, 12] ++
      [0, 0] ++ [0, 0] ++ [0, 0, 0, 4] ++ [0, 0, 0, 28]) ++ [0, 72, 0, 105]

/-- A 30-byte fragment holding one tag-table entry at offset 0 (signature
`cprt`, data offset 12, declared size 100) whose `desc` data declares an
ASCII length of 50, so the text slice from offset 24 to 73 runs far past the
30-byte end; the 6 available bytes spell `ABCDEF`. -/
def c9buf : Buf :=
  (ascii "cprt" ++ [0, 0, 0, 12] ++ [0, 0, 0, 100]) ++
    (ascii "desc" ++ [0, 0, 0, 0] ++ [0, 0, 0, 50]) ++ [65, 66, 67, 68, 69, 70]

end ICC

deriving instance DecidableEq for Except

/-! ## Supporting lemmas -/
namespace ICC

theorem readU16_ok (b : Buf) (off : Nat) (h : off + 2 ≤ b.length) :
    readU16 b off = .ok (byteAt b off * 256 + byteAt b (off + 1)) := by
  simp [readU16, h]

theorem readU32_ok (b : Buf) (off : Nat) (h : off + 4 ≤ b.length) :
    readU32 b off = .ok (readU32val b off) := by
  simp [readU32, h]

theorem readU32_err {b : Buf} {off : Nat} {e : JSErr} (h : readU32 b off = .error e) :
    e = .rangeError := by
  unfold readU32 at h
  split at h
  · cases h
  · cases h; rfl

theorem jpegStep_ge (jpeg : Buf) (pos : Nat) : pos + 2 ≤ jpegStep jpeg pos := by
  unfold jpegStep; omega

theorem pngStep_ge (png : Buf) (off : Nat) : off + 12 ≤ pngStep png off := by
  unfold pngStep; omega

theorem jpegCollect_eq (jpeg : Buf) :
    ∀ fuel pos, jpegCollect jpeg fuel pos =
      .ok ((jpegPositions jpeg fuel pos).filterMap (fragAt jpeg)) := by
  intro fuel
  induction fuel with
  | zero => intro pos; rfl
  | succ fuel ih =>
    intro pos
    rw [jpegCollect, jpegPositions]
    by_cases h : pos + 4 < jpeg.length
    · rw [if_pos h, if_pos h]
      simp only [readU16_ok jpeg pos (by omega), readU16_ok jpeg (pos + 2) (by omega)]
      rw [ih]
      rw [List.filterMap_cons]
      unfold fragAt jpegStep
      split_ifs <;> simp_all
    · rw [if_neg h, if_neg h]; rfl

end ICC

namespace ICC

theorem jsSlice_length_le (b : Buf) (s : Nat) (t : Int) :
    (jsSlice b s t).length ≤ b.length - s := by
  unfold jsSlice
  split <;> simp <;> omega

theorem jsSlice_stop_clamp (b : Buf) (s : Nat) (t : Int) (h : (b.length : Int) ≤ t) :
    jsSlice b s t = jsSlice b s (b.length : Int) := by
  unfold jsSlice
  have h0 : ¬ t < 0 := by omega
  have h1 : ¬ (b.length : Int) < 0 := by omega
  rw [if_neg h0, if_neg h1]
  have : min t.toNat b.length = b.length := by omega
  rw [this]
  simp

theorem jpegPositions_fuelEq (jpeg : Buf) :
    ∀ f1 f2 pos, jpeg.length ≤ pos + 2 * f1 + 4 → jpeg.length ≤ pos + 2 * f2 + 4 →
      jpegPositions jpeg f1 pos = jpegPositions jpeg f2 pos := by
  intro f1
  induction f1 with
  | zero =>
    intro f2 pos h1 h2
    have hng : ¬ pos + 4 < jpeg.length := by omega
    cases f2 with
    | zero => rfl
    | succ f2 => simp [jpegPositions, hng]
  | succ f1 ih =>
    intro f2 pos h1 h2
    cases f2 with
    | zero =>
      have hng : ¬ pos + 4 < jpeg.length := by omega
      simp [jpegPositions, hng]
    | succ f2 =>
      by_cases hg : pos + 4 < jpeg.length
      · have hs := jpegStep_ge jpeg pos
        simp only [jpegPositions, if_pos hg]
        rw [ih f2 (jpegStep jpeg pos) (by omega) (by omega)]
      · simp [jpegPositions, hg]

theorem jpegPositions_len (jpeg : Buf) :
    ∀ fuel pos, 2 * (jpegPositions jpeg fuel pos).length ≤ jpeg.length - pos := by
  intro fuel
  induction fuel with
  | zero => intro pos; simp [jpegPositions]
  | succ fuel ih =>
    intro pos
    by_cases hg : pos + 4 < jpeg.length
    · have hs := jpegStep_ge jpeg pos
      have := ih (jpegStep jpeg pos)
      simp only [jpegPositions, if_pos hg, List.length_cons]
      omega
    · simp [jpegPositions, hg]

end ICC

namespace ICC

theorem pngPositions_nil (png : Buf) (fuel off : Nat) (h : png.length ≤ off) :
    pngPositions png fuel off = [] := by
  cases fuel with
  | zero => rfl
  | succ fuel => simp [pngPositions]; omega

theorem pngPositions_fuelEq (png : Buf) :
    ∀ f1 f2 off, png.length ≤ off + 12 * f1 → png.length ≤ off + 12 * f2 →
      pngPositions png f1 off = pngPositions png f2 off := by
  intro f1
  induction f1 with
  | zero =>
    intro f2 off h1 h2
    rw [pngPositions_nil png f2 off (by omega)]; rfl
  | succ f1 ih =>
    intro f2 off h1 h2
    cases f2 with
    | zero =>
      rw [pngPositions_nil png (f1 + 1) off (by omega)]; rfl
    | succ f2 =>
      by_cases hg : off < png.length
      · simp only [pngPositions, if_pos hg]
        by_cases h4 : off + 4 ≤ png.length
        · simp only [if_pos h4]
          have hs := pngStep_ge png off
          by_cases hI : asciiDecode (jsSlice png (off + 4) (off + 8)) = ascii "IEND"
          · simp [hI]
          · by_cases hC : asciiDecode (jsSlice png (off + 4) (off + 8)) = ascii "iCCP"
            · simp [hI, hC]
            · simp only [hI, hC, if_false, if_neg hI, if_neg hC]
              rw [ih f2 (pngStep png off) (by omega) (by omega)]
        · simp [h4]
      · simp [pngPositions, hg]

theorem pngPositions_len (png : Buf) :
    ∀ fuel off, 12 * (pngPositions png fuel off).length ≤ png.length - off + 12 := by
  intro fuel
  induction fuel with
  | zero => intro off; simp [pngPositions]
  | succ fuel ih =>
    intro off
    by_cases hg : off < png.length
    · simp only [pngPositions, if_pos hg, List.length_cons]
      have hs := pngStep_ge png off
      split_ifs with h4 hI hC
      · simp only [List.length_nil]; omega
      · simp only [List.length_nil]; omega
      · rcases le_or_lt png.length (pngStep png off) with hend | hend
        · rw [pngPositions_nil png fuel _ hend]; simp only [List.length_nil]; omega
        · have := ih (pngStep png off); omega
      · simp only [List.length_nil]; omega
    · rw [pngPositions_nil png (fuel + 1) off (by omega)]
      simp only [List.length_nil]; omega

end ICC

namespace ICC

theorem readU32_oob (b : Buf) (off : Nat) (h : ¬ off + 4 ≤ b.length) :
    readU32 b off = .error .rangeError := by
  simp [readU32, h]

theorem pngNoICC_scan (png : Buf) (inflate : Buf → Except JStr Buf) :
    ∀ fuel off, pngNoICC png fuel off = true →
      pngScan png inflate fuel off = .ok none := by
  intro fuel
  induction fuel with
  | zero => intro off _; rfl
  | succ fuel ih =>
    intro off h
    by_cases hg : off < png.length
    · simp only [pngNoICC, if_pos hg] at h
      by_cases h4 : off + 4 ≤ png.length
      · simp only [if_pos h4] at h
        simp only [pngScan, if_pos hg, readU32_ok png off h4]
        by_cases hI : asciiDecode (jsSlice png (off + 4) (off + 8)) = ascii "IEND"
        · simp [hI]
        · by_cases hC : asciiDecode (jsSlice png (off + 4) (off + 8)) = ascii "iCCP"
          · simp [hI, hC] at h
            exact absurd h (by decide)
          · simp only [hI, hC, if_neg hI, if_neg hC, if_false] at h ⊢
            exact ih (pngStep png off) h
      · simp [h4] at h
    · simp only [pngScan, if_neg hg]

theorem pngReaches_scan (png : Buf) (inflate : Buf → Except JStr Buf) (target : Nat)
    (hTg : target < png.length) (hT4 : target + 4 ≤ png.length)
    (hTC : asciiDecode (jsSlice png (target + 4) (target + 8)) = ascii "iCCP") :
    ∀ fuel start, png.length + 12 ≤ start + 12 * fuel →
      pngReaches png fuel start target = true →
      pngScan png inflate fuel start = iccpResult png inflate target := by
  intro fuel
  induction fuel with
  | zero =>
    intro start hsur h
    simp only [pngReaches] at h
    have : start = target := by exact_mod_cast of_decide_eq_true h
    omega
  | succ fuel ih =>
    intro start hsur h
    by_cases heq : start = target
    · subst heq
      have hNI : asciiDecode (jsSlice png (start + 4) (start + 8)) ≠ ascii "IEND" := by
        rw [hTC]; decide
      simp only [pngScan, if_pos hTg, readU32_ok png start hT4]
      simp only [hNI, hTC, if_neg hNI, if_pos hTC, if_false, if_true]
      rfl
    · simp only [pngReaches, if_neg heq] at h
      by_cases hg : start < png.length
      · simp only [if_pos hg] at h
        by_cases h4 : start + 4 ≤ png.length
        · simp only [if_pos h4] at h
          by_cases hI : asciiDecode (jsSlice png (start + 4) (start + 8)) = ascii "IEND"
          · simp [hI] at h
          · by_cases hC : asciiDecode (jsSlice png (start + 4) (start + 8)) = ascii "iCCP"
            · simp [hI, hC] at h
            · simp only [hI, hC, if_neg hI, if_neg hC, if_false] at h
              simp only [pngScan, if_pos hg, readU32_ok png start h4]
              simp only [hI, hC, if_neg hI, if_neg hC, if_false]
              have hs := pngStep_ge png start
              exact ih (pngStep png start) (by omega) h
        · simp [h4] at h
      · simp [hg] at h

theorem pngScan_fuelEq (png : Buf) (inflate : Buf → Except JStr Buf) :
    ∀ f1 f2 off, png.length ≤ off + 12 * f1 → png.length ≤ off + 12 * f2 →
      pngScan png inflate f1 off = pngScan png inflate f2 off := by
  intro f1
  induction f1 with
  | zero =>
    intro f2 off h1 h2
    have hng : ¬ off < png.length := by omega
    cases f2 with
    | zero => rfl
    | succ f2 => simp [pngScan, hng]
  | succ f1 ih =>
    intro f2 off h1 h2
    cases f2 with
    | zero =>
      have hng : ¬ off < png.length := by omega
      simp [pngScan, hng]
    | succ f2 =>
      by_cases hg : off < png.length
      · simp only [pngScan, if_pos hg]
        by_cases h4 : off + 4 ≤ png.length
        · simp only [readU32_ok png off h4]
          by_cases hI : asciiDecode (jsSlice png (off + 4) (off + 8)) = ascii "IEND"
          · simp [hI]
          · by_cases hC : asciiDecode (jsSlice png (off + 4) (off + 8)) = ascii "iCCP"
            · simp [hI, hC]
            · simp only [hI, hC, if_neg hI, if_neg hC, if_false]
              have hs := pngStep_ge png off
              exact ih f2 (pngStep png off) (by omega) (by omega)
        · simp [readU32_oob png off h4]
      · simp [pngScan, hg]

end ICC

namespace ICC

theorem hasContent_err {b : Buf} {off : Nat} {e : JSErr}
    (h : hasContentAtOffset b off = .error e) : e = .rangeError := by
  unfold hasContentAtOffset at h
  cases hr : readU32 b off with
  | error e1 => rw [hr] at h; cases h; exact readU32_err hr
  | ok v => rw [hr] at h; cases h

theorem processTag_outcome (buffer : Buf) (ho : Nat) (p : Profile) :
    decodeOutcome (processTag buffer ho p) := by
  simp only [processTag]
  split
  · trivial
  next assign hta =>
    split
    next e he => rw [readU32_err he]; trivial
    next tagOffset hTO =>
      split
      next e he => rw [readU32_err he]; trivial
      next tagSize hTS =>
        split
        · show validReason _
          unfold validReason
          exact Or.inr (Or.inr (Or.inl (by decide)))
        · split
          · split
            next e he => rw [readU32_err he]; trivial
            next tagValueSize hTV =>
              split
              · show validReason _
                unfold validReason
                refine Or.inr (Or.inr (Or.inr (Or.inl
                  ⟨getContentAtOffsetAsString buffer ho, ?_⟩)))
                have hlit : ascii "Invalid ICC profile: " ++
                    ascii "description tag value size out of bounds for " =
                    ascii "Invalid ICC profile: description tag value size out of bounds for " := by
                  decide
                rw [← List.append_assoc, hlit]
              · trivial
          · split
            · trivial
            · split
              · split
                next e he => rw [readU32_err he]; trivial
                next numberOfNames hNN =>
                  split
                  next e he => rw [readU32_err he]; trivial
                  next nameRecordSize hNR =>
                    split
                    · show validReason _
                      unfold validReason
                      refine Or.inr (Or.inr (Or.inr (Or.inr
                        ⟨getContentAtOffsetAsString buffer ho, ?_⟩)))
                      have hlit : ascii "Invalid ICC profile: " ++
                          ascii "mluc name record size must be 12 for tag " =
                          ascii "Invalid ICC profile: mluc name record size must be 12 for tag " := by
                        decide
                      rw [← List.append_assoc, hlit]
                    · split
                      · split
                        next e he => rw [readU32_err he]; trivial
                        next nameLength hNL =>
                          split
                          next e he => rw [readU32_err he]; trivial
                          next nameOffset hNO => trivial
                      · trivial
              · trivial

end ICC

namespace ICC

theorem tagLoop_outcome (buffer : Buf) :
    ∀ count off p, decodeOutcome (tagLoop buffer count off p) := by
  intro count
  induction count with
  | zero => intro off p; trivial
  | succ count ih =>
    intro off p
    rw [tagLoop]
    cases hpt : processTag buffer off p with
    | error e =>
      have := processTag_outcome buffer off p
      rw [hpt] at this
      exact this
    | ok p2 => exact ih (off + 12) p2

theorem applyHeaderAttrs_err {buffer : Buf} {p : Profile} {e : JSErr}
    (h : applyHeaderAttrs buffer p = .error e) : e = .rangeError := by
  unfold applyHeaderAttrs at h
  cases h4 : hasContentAtOffset buffer 4 with
  | error e1 => rw [h4] at h; cases h; exact hasContent_err h4
  | ok b4 =>
  rw [h4] at h
  cases h12 : hasContentAtOffset buffer 12 with
  | error e1 => rw [h12] at h; cases h; exact hasContent_err h12
  | ok b12 =>
  rw [h12] at h
  cases h16 : hasContentAtOffset buffer 16 with
  | error e1 => rw [h16] at h; cases h; exact hasContent_err h16
  | ok b16 =>
  rw [h16] at h
  cases h20 : hasContentAtOffset buffer 20 with
  | error e1 => rw [h20] at h; cases h; exact hasContent_err h20
  | ok b20 =>
  rw [h20] at h
  cases h40 : hasContentAtOffset buffer 40 with
  | error e1 => rw [h40] at h; cases h; exact hasContent_err h40
  | ok b40 =>
  rw [h40] at h
  cases h48 : hasContentAtOffset buffer 48 with
  | error e1 => rw [h48] at h; cases h; exact hasContent_err h48
  | ok b48 =>
  rw [h48] at h
  cases h52 : hasContentAtOffset buffer 52 with
  | error e1 => rw [h52] at h; cases h; exact hasContent_err h52
  | ok b52 =>
  rw [h52] at h
  cases h80 : hasContentAtOffset buffer 80 with
  | error e1 => rw [h80] at h; cases h; exact hasContent_err h80
  | ok b80 =>
  rw [h80] at h
  cases h

end ICC

namespace ICC

theorem hasContent_ok {b : Buf} {off : Nat} {v : Bool}
    (h : hasContentAtOffset b off = .ok v) :
    v = decide (readU32val b off ≠ 0) := by
  unfold hasContentAtOffset at h
  cases hr : readU32 b off with
  | error e => rw [hr] at h; cases h
  | ok w =>
    rw [hr] at h
    cases h
    unfold readU32 at hr
    split at hr
    · cases hr; rfl
    · cases hr

theorem tagAssign_header {s : JStr} {f : Profile → JStr → Profile}
    (h : tagAssign s = some f) (p : Profile) (v : JStr) :
    (f p v).cmm = p.cmm ∧ (f p v).deviceClass = p.deviceClass ∧
      (f p v).colorSpace = p.colorSpace ∧ (f p v).connectionSpace = p.connectionSpace ∧
      (f p v).platform = p.platform ∧ (f p v).manufacturer = p.manufacturer ∧
      (f p v).model = p.model ∧ (f p v).creator = p.creator := by
  unfold tagAssign at h
  split_ifs at h <;> cases h <;>
    exact ⟨rfl, rfl, rfl, rfl, rfl, rfl, rfl, rfl⟩

theorem processTag_header {buffer : Buf} {ho : Nat} {p q : Profile}
    (h : processTag buffer ho p = .ok q) :
    q.cmm = p.cmm ∧ q.deviceClass = p.deviceClass ∧
      q.colorSpace = p.colorSpace ∧ q.connectionSpace = p.connectionSpace ∧
      q.platform = p.platform ∧ q.manufacturer = p.manufacturer ∧
      q.model = p.model ∧ q.creator = p.creator := by
  simp only [processTag] at h
  split at h
  · cases h; exact ⟨rfl, rfl, rfl, rfl, rfl, rfl, rfl, rfl⟩
  next assign hta =>
    repeat' split at h
    all_goals cases h
    all_goals first
      | exact ⟨rfl, rfl, rfl, rfl, rfl, rfl, rfl, rfl⟩
      | exact tagAssign_header hta p _

theorem tagLoop_header (buffer : Buf) :
    ∀ count off p q, tagLoop buffer count off p = .ok q →
      q.cmm = p.cmm ∧ q.deviceClass = p.deviceClass ∧
        q.colorSpace = p.colorSpace ∧ q.connectionSpace = p.connectionSpace ∧
        q.platform = p.platform ∧ q.manufacturer = p.manufacturer ∧
        q.model = p.model ∧ q.creator = p.creator := by
  intro count
  induction count with
  | zero =>
    intro off p q h
    cases h
    exact ⟨rfl, rfl, rfl, rfl, rfl, rfl, rfl, rfl⟩
  | succ count ih =>
    intro off p q h
    rw [tagLoop] at h
    cases hpt : processTag buffer off p with
    | error e => rw [hpt] at h; cases h
    | ok p2 =>
      rw [hpt] at h
      obtain ⟨a1, a2, a3, a4, a5, a6, a7, a8⟩ := ih (off + 12) p2 q h
      obtain ⟨b1, b2, b3, b4, b5, b6, b7, b8⟩ := processTag_header hpt
      exact ⟨a1.trans b1, a2.trans b2, a3.trans b3, a4.trans b4,
        a5.trans b5, a6.trans b6, a7.trans b7, a8.trans b8⟩

theorem applyHeaderAttrs_fields {buffer : Buf} {p q : Profile}
    (h : applyHeaderAttrs buffer p = .ok q) :
    q.cmm = (if readU32val buffer 4 ≠ 0 then some (getContentAtOffsetAsString buffer 4) else p.cmm) ∧
    q.deviceClass = (if readU32val buffer 12 ≠ 0 then some (getContentAtOffsetAsString buffer 12) else p.deviceClass) ∧
    q.colorSpace = (if readU32val buffer 16 ≠ 0 then some (getContentAtOffsetAsString buffer 16) else p.colorSpace) ∧
    q.connectionSpace = (if readU32val buffer 20 ≠ 0 then some (getContentAtOffsetAsString buffer 20) else p.connectionSpace) ∧
    q.platform = (if readU32val buffer 40 ≠ 0 then some (getContentAtOffsetAsString buffer 40) else p.platform) ∧
    q.manufacturer = (if readU32val buffer 48 ≠ 0 then some (getContentAtOffsetAsString buffer 48) else p.manufacturer) ∧
    q.model = (if readU32val buffer 52 ≠ 0 then some (getContentAtOffsetAsString buffer 52) else p.model) ∧
    q.creator = (if readU32val buffer 80 ≠ 0 then some (getContentAtOffsetAsString buffer 80) else p.creator) ∧
    q.version = p.version ∧ q.intent = p.intent ∧
    q.description = p.description ∧ q.copyright = p.copyright ∧
    q.deviceModelDescription = p.deviceModelDescription ∧
    q.viewingConditionsDescription = p.viewingConditionsDescription := by
  unfold applyHeaderAttrs at h
  cases h4 : hasContentAtOffset buffer 4 with
  | error e1 => rw [h4] at h; cases h
  | ok b4 =>
  rw [h4] at h
  cases h12 : hasContentAtOffset buffer 12 with
  | error e1 => rw [h12] at h; cases h
  | ok b12 =>
  rw [h12] at h
  cases h16 : hasContentAtOffset buffer 16 with
  | error e1 => rw [h16] at h; cases h
  | ok b16 =>
  rw [h16] at h
  cases h20 : hasContentAtOffset buffer 20 with
  | error e1 => rw [h20] at h; cases h
  | ok b20 =>
  rw [h20] at h
  cases h40 : hasContentAtOffset buffer 40 with
  | error e1 => rw [h40] at h; cases h
  | ok b40 =>
  rw [h40] at h
  cases h48 : hasContentAtOffset buffer 48 with
  | error e1 => rw [h48] at h; cases h
  | ok b48 =>
  rw [h48] at h
  cases h52 : hasContentAtOffset buffer 52 with
  | error e1 => rw [h52] at h; cases h
  | ok b52 =>
  rw [h52] at h
  cases h80 : hasContentAtOffset buffer 80 with
  | error e1 => rw [h80] at h; cases h
  | ok b80 =>
  rw [h80] at h
  cases h
  rw [hasContent_ok h4, hasContent_ok h12, hasContent_ok h16, hasContent_ok h20,
    hasContent_ok h40, hasContent_ok h48, hasContent_ok h52, hasContent_ok h80]
  refine ⟨?_, ?_, ?_, ?_, ?_, ?_, ?_, ?_, rfl, rfl, rfl, rfl, rfl, rfl⟩ <;> simp

end ICC

/-! ## Claim theorems, counterexamples and witnesses -/

namespace ICC

set_option maxRecDepth 8000

/-- Claim C1, counterexample: the 40-byte buffer `c1buf` passes the length
and signature checks, yet decoding escapes with Node's out-of-range read
error (at the intent read at offset 64), which is not an `InvalidProfile`
error. -/
theorem C1_counterexample : parse c1buf = .error .rangeError := by decide

/-- Claim C1 (amended): decoding any buffer either returns an attribute
record, fails with an `Invalid ICC profile` error carrying one specific
reason string per structural check, or fails with an out-of-range read error
when a fixed-offset or tag field lies past the buffer end. -/
theorem C1_decoder_outcome : ∀ buffer : Buf, decodeOutcome (parse buffer) := by
  intro buffer
  unfold parse
  split
  next e he => rw [readU32_err he]; trivial
  next size hr0 =>
    split
    · show validReason _
      unfold validReason
      exact Or.inl (by decide)
    · split
      · show validReason _
        unfold validReason
        exact Or.inr (Or.inl (by decide))
      · split
        next e he => rw [readU32_err he]; trivial
        next v8 hr8 =>
          split
          next e he => rw [readU32_err he]; trivial
          next v64 hr64 =>
            split
            next e he => rw [applyHeaderAttrs_err he]; trivial
            next p1 hA =>
              split
              next e he => rw [readU32_err he]; trivial
              next tagCount hr128 => exact tagLoop_outcome buffer tagCount 132 p1

/-- Claim C2, counterexample: `c2buf` holds an APP2 `ICC_PROFILE` segment
whose length field (256) reaches far past the 24-byte buffer end, yet
extraction succeeds with the 4 remaining bytes (silently clamped) instead of
failing with any container error. -/
theorem C2_counterexample :
    c2buf.length = 24 ∧
    byteAt c2buf 4 * 256 + byteAt c2buf 5 = 256 ∧
    extractFromJPEG c2buf = .ok (some [170, 187, 204, 221]) := by decide

/-- Claim C2 (amended): `extractFromJPEG` never fails with any error (there
is no `MalformedContainer` failure in the code); a segment whose declared
length runs past the buffer end has its fragment silently truncated at the
buffer end, the slice clamping to at most the bytes that remain. -/
theorem C2_no_failure :
    ∀ jpeg : Buf, (∃ r, extractFromJPEG jpeg = .ok r) ∧
      ∀ pos f, fragAt jpeg pos = some f → f.length ≤ jpeg.length - (pos + 18) := by
  intro jpeg
  constructor
  · unfold extractFromJPEG
    rw [jpegCollect_eq]
    exact ⟨_, rfl⟩
  · intro pos f hf
    unfold fragAt at hf
    split_ifs at hf
    cases hf
    exact jsSlice_length_le jpeg (pos + 18) _

/-- Claim C2 witness: the general theorem applied to `c2buf` and the
fragment its scan collects at position 2. -/
theorem C2_witness :
    (∃ r, extractFromJPEG c2buf = .ok r) ∧
      ([170, 187, 204, 221] : Buf).length ≤ c2buf.length - (2 + 18) :=
  ⟨(C2_no_failure c2buf).1,
    (C2_no_failure c2buf).2 2 [170, 187, 204, 221] (by decide)⟩

end ICC

namespace ICC

set_option maxRecDepth 8000

/-- Claim C3, counterexample: a truncated PNG with no `iCCP` chunk (the PNG
signature plus one stray byte) makes `extractFromPNG` raise an out-of-range
read error at the first chunk-length read instead of returning the `none`
outcome. -/
theorem C3_counterexample :
    extractFromPNG c3png (fun _ => .ok []) = .error .rangeError := by decide

/-- Claim C3 (amended): a JPEG whose scan collects no `ICC_PROFILE` fragment
yields the `none` outcome and never an error; a PNG with no `iCCP` chunk
yields `none` without error provided every chunk boundary the scan visits
leaves at least 4 bytes for the length read (`pngNoICC`), while a boundary
with 1 to 3 remaining bytes raises an out-of-range read error instead. -/
theorem C3_absence_not_error :
    ∀ (jpeg png : Buf) (inflate : Buf → Except JStr Buf),
      ((jpegPositions jpeg jpeg.length 2).filterMap (fragAt jpeg) = [] →
        extractFromJPEG jpeg = .ok none) ∧
      (pngNoICC png png.length 8 = true → extractFromPNG png inflate = .ok none) := by
  intro jpeg png inflate
  constructor
  · intro h
    unfold extractFromJPEG
    rw [jpegCollect_eq, h]
    rfl
  · intro h
    exact pngNoICC_scan png inflate png.length 8 h

/-- Claim C3 witness: a fragment-free JPEG and an `iCCP`-free PNG, each
returning the `none` outcome. -/
theorem C3_witness :
    extractFromJPEG [255, 216] = .ok none ∧
      extractFromPNG c3pngIend (fun _ => .ok []) = .ok none :=
  ⟨(C3_absence_not_error [255, 216] c3pngIend (fun _ => .ok [])).1 (by decide),
    (C3_absence_not_error [255, 216] c3pngIend (fun _ => .ok [])).2 (by decide)⟩

/-- Claim C4, counterexample: in `c4buf` the length field at position 2
reads 4, but the scan's next position is 8 = 2 + 4 + 2, not 2 + 4; and with
12 bytes total the scan stops at position 8 although exactly 4 (not fewer
than 4) bytes remain there. -/
theorem C4_counterexample :
    byteAt c4buf 4 * 256 + byteAt c4buf 5 = 4 ∧
    jpegStep c4buf 2 = 8 ∧
    jpegStep c4buf 2 ≠ 2 + 4 ∧
    c4buf.length = 12 ∧
    jpegPositions c4buf c4buf.length 2 = [2] := by decide

/-- Claim C4 (amended): after each segment the position advances by the
16-bit length field value plus 2 (the marker bytes precede the length
field), and the scan runs its body exactly at the positions where more than
4 bytes remain, stopping once 4 or fewer bytes remain before the buffer
end; the fragment collection is exactly the walk over those positions. -/
theorem C4_advance_and_stop :
    ∀ (jpeg : Buf) (fuel pos : Nat),
      jpegStep jpeg pos = pos + (byteAt jpeg (pos + 2) * 256 + byteAt jpeg (pos + 3)) + 2 ∧
      jpegPositions jpeg (fuel + 1) pos =
        (if pos + 4 < jpeg.length then pos :: jpegPositions jpeg fuel (jpegStep jpeg pos) else []) ∧
      jpegCollect jpeg fuel pos = .ok ((jpegPositions jpeg fuel pos).filterMap (fragAt jpeg)) :=
  fun jpeg fuel pos => ⟨rfl, rfl, jpegCollect_eq jpeg fuel pos⟩

/-- Claim C5 (confirmed): the JPEG extraction result is exactly the in-order
concatenation of the fragments collected along the scan positions (absence
for zero fragments, hence exactly the bytes from byte 14 of the payload to
the segment end for a single segment); on the concrete single-segment
`c5buf` it returns precisely those bytes. -/
theorem C5_fragment_concat :
    (∀ jpeg : Buf, extractFromJPEG jpeg =
      .ok (match (jpegPositions jpeg jpeg.length 2).filterMap (fragAt jpeg) with
        | [] => none
        | fs => some fs.flatten)) ∧
    extractFromJPEG c5buf = .ok (some [222, 173, 190, 239]) := by
  constructor
  · intro jpeg
    unfold extractFromJPEG
    rw [jpegCollect_eq]
    cases hfr : (jpegPositions jpeg jpeg.length 2).filterMap (fragAt jpeg) with
    | nil => simp
    | cons f fs => simp
  · decide

/-- Claim C10 (confirmed): every JPEG iteration advances the cursor by at
least 2 bytes and every PNG iteration by at least 12; the visited positions
therefore number at most a linear bound in the buffer length, and the
iteration budget `length` is saturated: granting either scan one more
iteration changes nothing. -/
theorem C10_scan_termination :
    ∀ (jpeg png : Buf) (inflate : Buf → Except JStr Buf) (fuel pos off : Nat),
      pos + 2 ≤ jpegStep jpeg pos ∧
      off + 12 ≤ pngStep png off ∧
      2 * (jpegPositions jpeg fuel pos).length ≤ jpeg.length - pos ∧
      12 * (pngPositions png fuel off).length ≤ png.length - off + 12 ∧
      jpegPositions jpeg jpeg.length pos = jpegPositions jpeg (jpeg.length + 1) pos ∧
      pngPositions png png.length off = pngPositions png (png.length + 1) off ∧
      jpegCollect jpeg jpeg.length pos = jpegCollect jpeg (jpeg.length + 1) pos ∧
      pngScan png inflate png.length off = pngScan png inflate (png.length + 1) off := by
  intro jpeg png inflate fuel pos off
  refine ⟨jpegStep_ge jpeg pos, pngStep_ge png off,
    jpegPositions_len jpeg fuel pos, pngPositions_len png fuel off,
    jpegPositions_fuelEq jpeg jpeg.length (jpeg.length + 1) pos (by omega) (by omega),
    pngPositions_fuelEq png png.length (png.length + 1) off (by omega) (by omega),
    ?_,
    pngScan_fuelEq png inflate png.length (png.length + 1) off (by omega) (by omega)⟩
  rw [jpegCollect_eq, jpegCollect_eq,
    jpegPositions_fuelEq jpeg jpeg.length (jpeg.length + 1) pos (by omega) (by omega)]

end ICC

namespace ICC

set_option maxRecDepth 8000

/-- Claim C6 (confirmed): when the scan from offset 8 reaches an `iCCP`
chunk whose data has a zero byte that is not its last byte and a
compression-method byte 0, `extractFromPNG` immediately returns the
inflated remainder after the null separator and method byte, or reports an
inflate error as `Failed to decompress ICC profile: ` plus the
decompressor's message; the result is fixed by this chunk alone, no later
chunk being scanned. -/
theorem C6_iccp_chunk (png : Buf) (inflate : Buf → Except JStr Buf) (off nullPos : Nat)
    (hreach : pngReaches png png.length 8 off = true)
    (hg : off < png.length) (h4 : off + 4 ≤ png.length)
    (hType : asciiDecode (jsSlice png (off + 4) (off + 8)) = ascii "iCCP")
    (hNull : jsIndexOfZero (jsSlice png (off + 8) (off + 8 + readU32val png off)) = some nullPos)
    (hLast : nullPos ≠ (jsSlice png (off + 8) (off + 8 + readU32val png off)).length - 1)
    (hMethod : byteAt (jsSlice png (off + 8) (off + 8 + readU32val png off)) (nullPos + 1) = 0) :
    extractFromPNG png inflate =
      match inflate ((jsSlice png (off + 8) (off + 8 + readU32val png off)).drop (nullPos + 2)) with
      | .ok iccProfile => .ok (some iccProfile)
      | .error msg =>
        .error (.error (ascii "Failed to decompress ICC profile: " ++ msg)) := by
  have h := pngReaches_scan png inflate off hg h4 hType png.length 8 (by omega) hreach
  unfold extractFromPNG
  rw [h]
  simp only [iccpResult, hNull, if_neg hLast, hMethod]
  simp

/-- Claim C6 witness: the theorem applied to `c6png`, whose only chunk is an
`iCCP` chunk with payload `[9, 9]`, and a duplicating inflate oracle. -/
theorem C6_witness :
    pngReaches c6png c6png.length 8 8 = true ∧
      extractFromPNG c6png (fun b => .ok (b ++ b)) = .ok (some [9, 9, 9, 9]) :=
  ⟨by decide, by
    have h := C6_iccp_chunk c6png (fun b => .ok (b ++ b)) 8 1 (by decide) (by decide)
      (by decide) (by decide) (by decide) (by decide) (by decide)
    exact h⟩

end ICC

namespace ICC

set_option maxRecDepth 8000

/-- Claim C7, counterexample: `c7buf` decodes successfully with `cmm` equal
to the four raw bytes `"ABC\x00"`; the trailing NUL byte is not stripped
(JavaScript `trim` removes only whitespace), so the value differs from the
claimed `"ABC"`. -/
theorem C7_counterexample :
    parse c7buf = .ok c7profile ∧
    c7profile.cmm = some [65, 66, 67, 0] ∧
    some ([65, 66, 67, 0] : JStr) ≠ some (ascii "ABC") := by decide

/-- Claim C7 (amended): in every successful decode, each of the eight
four-byte-code attributes is present exactly when its 32-bit word is
non-zero (the 4 bytes are not all zero), and its value is then the 4 bytes
UTF-8 decoded with leading and trailing JavaScript whitespace (not NUL
bytes) stripped, looked up case-insensitively in the vocabulary, unmatched
codes passing through verbatim; `mntr` in any letter case yields
`Monitor`. -/
theorem C7_header_attributes :
    ∀ (buffer : Buf) (q : Profile), parse buffer = .ok q →
      (q.cmm = hdrAttr buffer 4 ∧ q.deviceClass = hdrAttr buffer 12 ∧
        q.colorSpace = hdrAttr buffer 16 ∧ q.connectionSpace = hdrAttr buffer 20 ∧
        q.platform = hdrAttr buffer 40 ∧ q.manufacturer = hdrAttr buffer 48 ∧
        q.model = hdrAttr buffer 52 ∧ q.creator = hdrAttr buffer 80) ∧
      getContentAtOffsetAsString [109, 110, 116, 114] 0 = ascii "Monitor" ∧
      getContentAtOffsetAsString [77, 78, 84, 82] 0 = ascii "Monitor" ∧
      getContentAtOffsetAsString [77, 110, 84, 114] 0 = ascii "Monitor" := by
  intro buffer q h
  refine ⟨?_, by decide, by decide, by decide⟩
  unfold parse at h
  split at h
  · cases h
  next size hr0 =>
    split at h
    · cases h
    · split at h
      · cases h
      · split at h
        · cases h
        next v8 hr8 =>
          split at h
          · cases h
          next v64 hr64 =>
            split at h
            · cases h
            next p1 hA =>
              split at h
              · cases h
              next tagCount hr128 =>
                obtain ⟨b1, b2, b3, b4, b5, b6, b7, b8, _, _, _, _, _, _⟩ :=
                  applyHeaderAttrs_fields hA
                obtain ⟨a1, a2, a3, a4, a5, a6, a7, a8⟩ :=
                  tagLoop_header buffer tagCount 132 p1 q h
                refine ⟨?_, ?_, ?_, ?_, ?_, ?_, ?_, ?_⟩ <;>
                  simp [a1, a2, a3, a4, a5, a6, a7, a8,
                    b1, b2, b3, b4, b5, b6, b7, b8, hdrAttr]

/-- Claim C7 witness: the amended theorem applied to `c7buf`, whose decode
succeeds with `cmm` present (bytes not all zero) and `deviceClass` absent
(bytes all zero). -/
theorem C7_witness :
    parse c7buf = .ok c7profile ∧
      c7profile.cmm = hdrAttr c7buf 4 ∧ c7profile.deviceClass = hdrAttr c7buf 12 :=
  ⟨by decide,
    ((C7_header_attributes c7buf c7profile (by decide)).1).1,
    ((C7_header_attributes c7buf c7profile (by decide)).1).2.1⟩

end ICC

namespace ICC

set_option maxRecDepth 8000

/-- Claim C8 (confirmed): for a recognized tag whose in-bounds data has type
code `mluc`, a name record size other than 12 fails with the record-size
reason; with record size 12 and zero names the profile is returned
unchanged; otherwise only the first name record is used, and the attribute
becomes the big-endian UTF-16 decoding of `nameLength` bytes at the tag
offset plus the 32-bit name offset read at `tagOffset + 24`. -/
theorem C8_mluc_tag (buffer : Buf) (ho : Nat) (p : Profile)
    (assign : Profile → JStr → Profile)
    (hta : tagAssign (getContentAtOffsetAsString buffer ho) = some assign)
    (tagOffset tagSize : Nat)
    (hTO : readU32 buffer (ho + 4) = .ok tagOffset)
    (hTS : readU32 buffer (ho + 8) = .ok tagSize)
    (hInB : ¬ tagOffset > buffer.length)
    (hType : getContentAtOffsetAsString buffer tagOffset = ascii "mluc")
    (numberOfNames nameRecordSize : Nat)
    (hNN : readU32 buffer (tagOffset + 8) = .ok numberOfNames)
    (hNR : readU32 buffer (tagOffset + 12) = .ok nameRecordSize) :
    (nameRecordSize ≠ 12 →
      processTag buffer ho p = .error (invalid
        (ascii "mluc name record size must be 12 for tag " ++
          getContentAtOffsetAsString buffer ho))) ∧
    (nameRecordSize = 12 → numberOfNames = 0 → processTag buffer ho p = .ok p) ∧
    (nameRecordSize = 12 → ∀ nameLength nameOffset : Nat,
      numberOfNames > 0 →
      readU32 buffer (tagOffset + 20) = .ok nameLength →
      readU32 buffer (tagOffset + 24) = .ok nameOffset →
      processTag buffer ho p = .ok (assign p (readStringUTF16BE buffer
        (tagOffset + nameOffset) (tagOffset + nameOffset + nameLength)))) := by
  have hD : getContentAtOffsetAsString buffer tagOffset ≠ ascii "desc" := by
    rw [hType]; decide
  have hTx : getContentAtOffsetAsString buffer tagOffset ≠ ascii "text" := by
    rw [hType]; decide
  have e1 : ascii "mluc" ≠ ascii "desc" := by decide
  have e2 : ascii "mluc" ≠ ascii "text" := by decide
  refine ⟨?_, ?_, ?_⟩
  · intro h12
    simp only [processTag, hta, hTO, hTS, if_neg hInB, hD, hTx, hType, hNN, hNR]
    simp [h12, e1, e2]
  · intro h12 h0
    simp only [processTag, hta, hTO, hTS, if_neg hInB, hD, hTx, hType, hNN, hNR]
    simp [h12, h0, e1, e2]
  · intro h12 nameLength nameOffset h0 hNL hNO
    simp only [processTag, hta, hTO, hTS, if_neg hInB, hD, hTx, hType, hNN, hNR, hNL, hNO]
    simp [h12, h0, e1, e2]

/-- Claim C8 witness: the theorem applied to the concrete `mluc` tag of
`c8buf` (one name record, name length 4, name offset 28), producing
copyright `Hi` from the UTF-16BE bytes at offset 40. -/
theorem C8_witness :
    processTag c8buf 0 {} = .ok { copyright := some [72, 105] } := by
  have h := (C8_mluc_tag c8buf 0 {} (fun p v => { p with copyright := some v }) rfl
    12 30 (by decide) (by decide) (by decide) (by decide) 1 12
    (by decide) (by decide)).2.2 rfl 4 28 (by decide) (by decide) (by decide)
  exact h.trans (by decide)

/-- Claim C9 (confirmed): the decoder never checks a recognized tag's data
end against the buffer length; a `desc` tag whose header fields are in
bounds but whose declared text range runs past the buffer end, and likewise
a `text` tag whose `tagOffset + tagSize - 7` end lies past the buffer end,
decode successfully with the extracted text silently truncated at the
buffer end. -/
theorem C9_silent_truncation (buffer : Buf) (ho : Nat) (p : Profile)
    (assign : Profile → JStr → Profile)
    (hta : tagAssign (getContentAtOffsetAsString buffer ho) = some assign)
    (tagOffset tagSize : Nat)
    (hTO : readU32 buffer (ho + 4) = .ok tagOffset)
    (hTS : readU32 buffer (ho + 8) = .ok tagSize)
    (hInB : ¬ tagOffset > buffer.length) :
    (∀ tagValueSize : Nat,
      getContentAtOffsetAsString buffer tagOffset = ascii "desc" →
      readU32 buffer (tagOffset + 8) = .ok tagValueSize →
      ¬ tagValueSize > tagSize →
      buffer.length ≤ tagOffset + tagValueSize + 11 →
      processTag buffer ho p = .ok (assign p (utf8Decode
        (jsSlice buffer (tagOffset + 12) buffer.length)))) ∧
    (getContentAtOffsetAsString buffer tagOffset = ascii "text" →
      (buffer.length : Int) ≤ (tagOffset : Int) + tagSize - 7 →
      processTag buffer ho p = .ok (assign p (utf8Decode
        (jsSlice buffer (tagOffset + 8) buffer.length)))) := by
  constructor
  · intro tagValueSize hType hTV hSz hOver
    simp only [processTag, hta, hTO, hTS, if_neg hInB, hType, hTV]
    rw [jsSlice_stop_clamp buffer (tagOffset + 12) (tagOffset + tagValueSize + 11)
      (by exact_mod_cast hOver)]
    simp [hSz]
  · intro hType hOver
    have e3 : ascii "text" ≠ ascii "desc" := by decide
    simp only [processTag, hta, hTO, hTS, if_neg hInB, hType]
    rw [jsSlice_stop_clamp buffer (tagOffset + 8) ((tagOffset : Int) + tagSize - 7) hOver]
    simp [e3]

/-- Claim C9 witness: the `desc` tag of `c9buf` declares an ASCII length of
50 with only 6 content bytes in the buffer; decoding succeeds and yields the
6 bytes `ABCDEF`. -/
theorem C9_witness :
    processTag c9buf 0 {} = .ok { copyright := some [65, 66, 67, 68, 69, 70] } := by
  have h := (C9_silent_truncation c9buf 0 {} (fun p v => { p with copyright := some v }) rfl
    12 100 (by decide) (by decide) (by decide)).1 50
    (by decide) (by decide) (by decide) (by decide)
  exact h.trans (by decide)

end ICC
